import Mathlib

/- Shallow embedding of the gotrails audit-trail engine (Go) and proofs of the
   frozen claims about it.

   Modelling conventions:
   - Go byte streams are lists of byte values (Nat below 256).
   - Go machine integers are Nat or Int; 32-bit overflow is explicit (mod 2^32).
   - Go maps are association lists; the JSON encoder sorts object keys the way
     encoding/json does for map values, and keeps declaration order for structs.
   - Go any values produced by encoding/json are the inductive Value below
     (JSON numbers appear here as Int; no claim depends on float formatting).
   - time.Time values carry their RFC3339 rendering as a String where they are
     serialized, and a millisecond Int where they are subtracted.
   - nil pointers/interfaces are Option; calling a method on a nil receiver is
     a Go runtime panic, modelled with Except GoPanic where a call site can
     receive nil.
-/

namespace GoTrails

/-- Generic structured value: the shape of a Go any decoded by encoding/json. -/
inductive Value where
  | vNull : Value
  | vBool (b : Bool) : Value
  | vInt (n : Int) : Value
  | vStr (s : String) : Value
  | vArr (xs : List Value) : Value
  | vObj (kvs : List (String × Value)) : Value

/-- Hex digit character for a value below 16 (lower case, as encoding/hex). -/
def hexDigit (n : Nat) : Char :=
  if n < 10 then Char.ofNat (48 + n) else Char.ofNat (87 + n)

/-- Two-digit lower-case hex of a byte value. -/
def hex2 (n : Nat) : String :=
  String.mk [hexDigit ((n / 16) % 16), hexDigit (n % 16)]

/-- Escaping of one character, as Go encoding/json writes string contents:
    quote and backslash escaped, newline/carriage-return/tab named escapes,
    other control characters and the HTML-sensitive characters as \u00xx,
    U+2028 and U+2029 escaped, everything else verbatim. -/
def escapeChar (c : Char) : String :=
  if c = '"' then "\\\""
  else if c = '\\' then "\\\\"
  else if c = '\n' then "\\n"
  else if c = '\r' then "\\r"
  else if c = '\t' then "\\t"
  else if c.toNat < 32 then "\\u00" ++ hex2 c.toNat
  else if c = '<' then "\\u003c"
  else if c = '>' then "\\u003e"
  else if c = '&' then "\\u0026"
  else if c.toNat = 8232 then "\\u2028"
  else if c.toNat = 8233 then "\\u2029"
  else String.mk [c]

/-- A JSON string literal for s, in Go encoding/json style. -/
def quoteStr (s : String) : String :=
  "\"" ++ String.join (s.data.map escapeChar) ++ "\""

/-- Insert one already-encoded object entry into a key-sorted list. -/
def insertEntry (kv : String × String) : List (String × String) → List (String × String)
  | [] => [kv]
  | x :: xs => if x.1 < kv.1 then x :: insertEntry kv xs else kv :: x :: xs

/-- Sort already-encoded object entries by key, as encoding/json does for
    Go map values. -/
def sortEntries (l : List (String × String)) : List (String × String) :=
  l.foldr insertEntry []

/-- JSON object text from already-encoded entries, in the order given. -/
def objText (entries : List (String × String)) : String :=
  "\x7b" ++ String.intercalate "," (entries.map fun kv => quoteStr kv.1 ++ ":" ++ kv.2) ++ "\x7d"

/-- JSON array text from already-encoded element texts. -/
def arrText (elems : List String) : String :=
  "[" ++ String.intercalate "," elems ++ "]"

mutual

/-- encoding/json rendering of a generic value; map keys sorted. -/
def encodeVal : Value → String
  | Value.vNull => "null"
  | Value.vBool true => "true"
  | Value.vBool false => "false"
  | Value.vInt n => toString n
  | Value.vStr s => quoteStr s
  | Value.vArr xs => arrText (encodeElems xs)
  | Value.vObj kvs => objText (sortEntries (encodeEntries kvs))

/-- Rendered elements of a JSON array, in order. -/
def encodeElems : List Value → List String
  | [] => []
  | v :: vs => encodeVal v :: encodeElems vs

/-- Rendered entries of a JSON object, before key sorting. -/
def encodeEntries : List (String × Value) → List (String × String)
  | [] => []
  | kv :: rest => (kv.1, encodeVal kv.2) :: encodeEntries rest

end

/-- encoding/json rendering of a Go map[string][]string, keys sorted. -/
def encodeHeaders (hs : List (String × List String)) : String :=
  objText (sortEntries (hs.map fun kv => (kv.1, arrText (kv.2.map quoteStr))))

/- SHA-256 over byte lists, as crypto/sha256 computes it.  Words are Nat
   reduced mod 2^32. -/

/-- Reduce to a 32-bit word. -/
def w32 (n : Nat) : Nat := n % 4294967296

/-- Right rotation of a 32-bit word. -/
def rotr32 (n x : Nat) : Nat := w32 ((x >>> n) ||| (x <<< (32 - n)))

/-- SHA-256 initial hash values (decimal renderings of the standard words). -/
def shaH0 : List Nat :=
  [1779033703, 3144134277, 1013904242, 2773480762,
   1359893119, 2600822924, 528734635, 1541459225]

/-- SHA-256 round constants (decimal renderings of the standard words). -/
def shaK : List Nat :=
  [1116352408, 1899447441, 3049323471, 3921009573, 961987163, 1508970993,
   2453635748, 2870763221, 3624381080, 310598401, 607225278, 1426881987,
   1925078388, 2162078206, 2614888103, 3248222580, 3835390401, 4022224774,
   264347078, 604807628, 770255983, 1249150122, 1555081692, 1996064986,
   2554220882, 2821834349, 2952996808, 3210313671, 3336571891, 3584528711,
   113926993, 338241895, 666307205, 773529912, 1294757372, 1396182291,
   1695183700, 1986661051, 2177026350, 2456956037, 2730485921, 2820302411,
   3259730800, 3345764771, 3516065817, 3600352804, 4094571909, 275423344,
   430227734, 506948616, 659060556, 883997877, 958139571, 1322822218,
   1537002063, 1747873779, 1955562222, 2024104815, 2227730452, 2361852424,
   2428436474, 2756734187, 3204031479, 3329325298]

/-- Big-endian 8-byte rendering of a length in bits. -/
def be64 (n : Nat) : List Nat :=
  [(n >>> 56) % 256, (n >>> 48) % 256, (n >>> 40) % 256, (n >>> 32) % 256,
   (n >>> 24) % 256, (n >>> 16) % 256, (n >>> 8) % 256, n % 256]

/-- SHA-256 padding: 0x80, zeros to 56 mod 64, then the bit length. -/
def padMsg (msg : List Nat) : List Nat :=
  let l := msg.length
  let padLen := (64 - ((l + 9) % 64)) % 64
  msg ++ [128] ++ List.replicate padLen 0 ++ be64 (8 * l)

/-- Big-endian 32-bit words from a byte list (length a multiple of 4). -/
def bytesToWords : List Nat → List Nat
  | a :: b :: c :: d :: rest => ((a <<< 24) ||| (b <<< 16) ||| (c <<< 8) ||| d) :: bytesToWords rest
  | _ => []

/-- Split a word list into 16-word blocks. -/
def chunks16 : List Nat → List (List Nat)
  | [] => []
  | w :: rest => ((w :: rest).take 16) :: chunks16 ((w :: rest).drop 16)
termination_by l => l.length
decreasing_by simp [List.length_drop]; omega

/-- One message-schedule extension step: append word number (length w). -/
def schedStep (w : List Nat) : List Nat :=
  let i := w.length
  let x15 := w.getD (i - 15) 0
  let x2 := w.getD (i - 2) 0
  let s0 := (rotr32 7 x15) ^^^ (rotr32 18 x15) ^^^ (x15 >>> 3)
  let s1 := (rotr32 17 x2) ^^^ (rotr32 19 x2) ^^^ (x2 >>> 10)
  w ++ [w32 (w.getD (i - 16) 0 + s0 + w.getD (i - 7) 0 + s1)]

/-- Iterate the schedule extension n times. -/
def extendSched : Nat → List Nat → List Nat
  | 0, w => w
  | n + 1, w => extendSched n (schedStep w)

/-- The eight SHA-256 working variables. -/
structure Sha256State where
  a : Nat
  b : Nat
  c : Nat
  d : Nat
  e : Nat
  f : Nat
  g : Nat
  h : Nat

/-- One SHA-256 compression round with a (round constant, schedule word) pair. -/
def compressRound (st : Sha256State) (kw : Nat × Nat) : Sha256State :=
  let s1 := (rotr32 6 st.e) ^^^ (rotr32 11 st.e) ^^^ (rotr32 25 st.e)
  let ch := (st.e &&& st.f) ^^^ ((st.e ^^^ 4294967295) &&& st.g)
  let temp1 := w32 (st.h + s1 + ch + kw.1 + kw.2)
  let s0 := (rotr32 2 st.a) ^^^ (rotr32 13 st.a) ^^^ (rotr32 22 st.a)
  let maj := (st.a &&& st.b) ^^^ (st.a &&& st.c) ^^^ (st.b &&& st.c)
  let temp2 := w32 (s0 + maj)
  ⟨w32 (temp1 + temp2), st.a, st.b, st.c, w32 (st.d + temp1), st.e, st.f, st.g⟩

/-- Compress one 16-word block into the running hash values. -/
def compressBlock (hs : List Nat) (block : List Nat) : List Nat :=
  let w := extendSched 48 block
  let init : Sha256State :=
    ⟨hs.getD 0 0, hs.getD 1 0, hs.getD 2 0, hs.getD 3 0,
     hs.getD 4 0, hs.getD 5 0, hs.getD 6 0, hs.getD 7 0⟩
  let st := (shaK.zip w).foldl compressRound init
  [w32 (hs.getD 0 0 + st.a), w32 (hs.getD 1 0 + st.b), w32 (hs.getD 2 0 + st.c),
   w32 (hs.getD 3 0 + st.d), w32 (hs.getD 4 0 + st.e), w32 (hs.getD 5 0 + st.f),
   w32 (hs.getD 6 0 + st.g), w32 (hs.getD 7 0 + st.h)]

/-- SHA-256 digest of a byte list, as eight 32-bit words. -/
def sha256Words (msg : List Nat) : List Nat :=
  (chunks16 (bytesToWords (padMsg msg))).foldl compressBlock shaH0

/-- Eight lower-case hex digits of a 32-bit word, most significant first. -/
def hex8 (n : Nat) : String :=
  String.mk ((List.range 8).map fun i => hexDigit ((n >>> (28 - 4 * i)) % 16))

/-- Lower-case hex SHA-256 digest of a byte list (sha256.Sum256 then
    hex.EncodeToString). -/
def sha256hex (msg : List Nat) : String :=
  String.join ((sha256Words msg).map hex8)

/-- UTF-8 bytes of a string, as Go []byte(s). -/
def strBytes (s : String) : List Nat :=
  s.toUTF8.toList.map (fun b => b.toNat)

/- The Trail data model (package gotrails, trace source file). -/

/-- Config, the fields of gotrails.Config.  SamplingRate is float64 in Go,
    modelled as a rational. -/
structure Config where
  ServiceName : String
  Environment : String
  TraceIDHeader : String
  RequestIDHeader : String
  MaxRequestBodySize : Nat
  MaxResponseBodySize : Nat
  MaskFields : List String
  MaskValue : String
  EnableMasking : Bool
  ExcludeHeaders : List String
  IncludeHeaders : Option (List String)
  EnableAsync : Bool
  AsyncQueueSize : Nat
  SamplingRate : Rat
  Immutable : Bool

/-- DefaultConfig, the default configuration values. -/
def DefaultConfig : Config where
  ServiceName := "unknown-service"
  Environment := "development"
  TraceIDHeader := "X-Trace-ID"
  RequestIDHeader := "X-Request-ID"
  MaxRequestBodySize := 65536
  MaxResponseBodySize := 65536
  MaskFields := ["password", "token", "secret", "api_key", "apikey",
                 "authorization", "credit_card", "creditcard", "cvv", "pin"]
  MaskValue := "***MASKED***"
  EnableMasking := true
  ExcludeHeaders := ["authorization", "cookie", "set-cookie", "x-api-key"]
  IncludeHeaders := none
  EnableAsync := true
  AsyncQueueSize := 1000
  SamplingRate := 1
  Immutable := false

/-- HTTPRequest: the incoming request snapshot.  Headers is the multimap,
    Body the generic (decoded) value, vNull for a nil interface. -/
structure HTTPRequest where
  Method : String
  Path : String
  Query : String
  Headers : List (String × List String)
  Body : Value

/-- HTTPResponse: the outgoing response snapshot. -/
structure HTTPResponse where
  Status : Int
  Headers : List (String × List String)
  Body : Value

/-- InternalStep: one recorded in-process step.  StartTime is the monotonic
    clock in milliseconds (excluded from serialization by its json tag). -/
structure InternalStep where
  Name : String
  LatencyMs : Int
  Request : Value
  Response : Value
  Error : String
  StartTime : Int

/-- Integration: one recorded external call.  The source field Type (the
    IntegrationType string) is a Lean keyword, so it is Type' here. -/
structure Integration where
  Type' : String
  Name : String
  LatencyMs : Int
  Request : Value
  Response : Value
  Error : String
  Metadata : List (String × Value)

/-- TrailError: one recorded error. -/
structure TrailError where
  Source : String
  Message : String
  Code : String

/-- Trail: the per-unit-of-work record.  Timestamp is the RFC3339 rendering of
    the creation time, startTime the monotonic clock in milliseconds. -/
structure Trail where
  Timestamp : String
  TraceID : String
  RequestID : String
  Service : String
  Environment : String
  Request : Option HTTPRequest
  Response : Option HTTPResponse
  LatencyMs : Int
  startTime : Int
  InternalSteps : List InternalStep
  Integrations : List Integration
  Errors : List TrailError
  Metadata : List (String × Value)
  immutable : Bool
  cfg : Option Config
  Hash : String
  prevHash : String

/-- NewTrail: create a Trail, or none when the sampling draw rejects it.
    draw stands for the rand.Float64() result; nowStr and nowMs for
    time.Now().UTC(). -/
def NewTrail (traceID requestID : String) (cfg0 : Option Config) (draw : Rat)
    (nowStr : String) (nowMs : Int) : Option Trail :=
  let cfg := cfg0.getD DefaultConfig
  if cfg.SamplingRate < 1 ∧ draw > cfg.SamplingRate then none
  else some
    { Timestamp := nowStr
      TraceID := traceID
      RequestID := requestID
      Service := cfg.ServiceName
      Environment := cfg.Environment
      Request := none
      Response := none
      LatencyMs := 0
      startTime := nowMs
      InternalSteps := []
      Integrations := []
      Errors := []
      Metadata := []
      immutable := false
      cfg := some cfg
      Hash := ""
      prevHash := "" }

/-- SetRequest: store the request snapshot (no immutability check in the
    source). -/
def Trail.SetRequest (t : Trail) (req : Option HTTPRequest) : Trail :=
  { t with Request := req }

/-- SetResponse: store the response snapshot (no immutability check in the
    source). -/
def Trail.SetResponse (t : Trail) (resp : Option HTTPResponse) : Trail :=
  { t with Response := resp }

/-- AddInternalStep: append a step unless the Trail is immutable. -/
def Trail.AddInternalStep (t : Trail) (step : InternalStep) : Trail :=
  if t.immutable then t
  else { t with InternalSteps := t.InternalSteps ++ [step] }

/-- AddIntegration: append an integration unless the Trail is immutable. -/
def Trail.AddIntegration (t : Trail) (integration : Integration) : Trail :=
  if t.immutable then t
  else { t with Integrations := t.Integrations ++ [integration] }

/-- AddError: append an error unless the Trail is immutable. -/
def Trail.AddError (t : Trail) (source message : String) : Trail :=
  if t.immutable then t
  else { t with Errors := t.Errors ++ [⟨source, message, ""⟩] }

/-- AddErrorWithCode: append an error with a code unless the Trail is
    immutable. -/
def Trail.AddErrorWithCode (t : Trail) (source message code : String) : Trail :=
  if t.immutable then t
  else { t with Errors := t.Errors ++ [⟨source, message, code⟩] }

/-- Go map assignment on an association list: replace the first binding of the
    key, or append a new one. -/
def mapSet (k : String) (v : Value) : List (String × Value) → List (String × Value)
  | [] => [(k, v)]
  | kv :: rest => if kv.1 = k then (k, v) :: rest else kv :: mapSet k v rest

/-- SetMetadata: set one key unless the Trail is immutable. -/
def Trail.SetMetadata (t : Trail) (key : String) (value : Value) : Trail :=
  if t.immutable then t
  else { t with Metadata := mapSet key value t.Metadata }

/-- SetPrevHash: store the chaining hash (no immutability check in the
    source). -/
def Trail.SetPrevHash (t : Trail) (prev : String) : Trail :=
  { t with prevHash := prev }

/- Serialization of the hash input: json.Marshal of the tmp struct built in
   computeHashLocked.  The tmp struct has no json tags, so its keys are the Go
   field names in declaration order, nothing omitted; the nested types keep
   their own json tags. -/

/-- A field of a struct JSON object: some (key, rendered value), or none when
    omitempty drops it. -/
def fieldsText (fields : List (Option (String × String))) : String :=
  objText (fields.filterMap id)

/-- encoding/json rendering of an HTTPRequest (tags: method, path,
    query omitempty, headers omitempty, body omitempty). -/
def encodeHTTPRequest (r : HTTPRequest) : String :=
  fieldsText
    [some ("method", quoteStr r.Method),
     some ("path", quoteStr r.Path),
     if r.Query = "" then none else some ("query", quoteStr r.Query),
     if r.Headers.isEmpty then none else some ("headers", encodeHeaders r.Headers),
     match r.Body with | Value.vNull => none | b => some ("body", encodeVal b)]

/-- encoding/json rendering of an HTTPResponse (tags: status,
    headers omitempty, body omitempty). -/
def encodeHTTPResponse (r : HTTPResponse) : String :=
  fieldsText
    [some ("status", toString r.Status),
     if r.Headers.isEmpty then none else some ("headers", encodeHeaders r.Headers),
     match r.Body with | Value.vNull => none | b => some ("body", encodeVal b)]

/-- encoding/json rendering of an InternalStep (tags: name, latency_ms,
    request omitempty, response omitempty, error omitempty, StartTime
    excluded). -/
def encodeInternalStep (s : InternalStep) : String :=
  fieldsText
    [some ("name", quoteStr s.Name),
     some ("latency_ms", toString s.LatencyMs),
     match s.Request with | Value.vNull => none | v => some ("request", encodeVal v),
     match s.Response with | Value.vNull => none | v => some ("response", encodeVal v),
     if s.Error = "" then none else some ("error", quoteStr s.Error)]

/-- encoding/json rendering of an Integration (tags: type, name, latency_ms,
    request omitempty, response omitempty, error omitempty,
    metadata omitempty). -/
def encodeIntegration (g : Integration) : String :=
  fieldsText
    [some ("type", quoteStr g.Type'),
     some ("name", quoteStr g.Name),
     some ("latency_ms", toString g.LatencyMs),
     match g.Request with | Value.vNull => none | v => some ("request", encodeVal v),
     match g.Response with | Value.vNull => none | v => some ("response", encodeVal v),
     if g.Error = "" then none else some ("error", quoteStr g.Error),
     if g.Metadata.isEmpty then none
     else some ("metadata", objText (sortEntries (encodeEntries g.Metadata)))]

/-- encoding/json rendering of a TrailError (tags: source, message,
    code omitempty). -/
def encodeTrailError (e : TrailError) : String :=
  fieldsText
    [some ("source", quoteStr e.Source),
     some ("message", quoteStr e.Message),
     if e.Code = "" then none else some ("code", quoteStr e.Code)]

/-- The serialized hash input of a Trail: json.Marshal of the tmp struct of
    computeHashLocked (fields Timestamp, TraceID, RequestID, Service,
    Environment, Request, Response, LatencyMs, InternalSteps, Integrations,
    Errors, Metadata, PrevHash; Hash, prevHash own field, mu, cfg and
    immutable excluded). -/
def Trail.hashPayload (t : Trail) : String :=
  fieldsText
    [some ("Timestamp", quoteStr t.Timestamp),
     some ("TraceID", quoteStr t.TraceID),
     some ("RequestID", quoteStr t.RequestID),
     some ("Service", quoteStr t.Service),
     some ("Environment", quoteStr t.Environment),
     some ("Request", match t.Request with | none => "null" | some r => encodeHTTPRequest r),
     some ("Response", match t.Response with | none => "null" | some r => encodeHTTPResponse r),
     some ("LatencyMs", toString t.LatencyMs),
     some ("InternalSteps", arrText (t.InternalSteps.map encodeInternalStep)),
     some ("Integrations", arrText (t.Integrations.map encodeIntegration)),
     some ("Errors", arrText (t.Errors.map encodeTrailError)),
     some ("Metadata", objText (sortEntries (encodeEntries t.Metadata))),
     some ("PrevHash", quoteStr t.prevHash)]

/-- computeHashLocked: SHA-256 of the serialized hash input, hex encoded. -/
def Trail.computeHashLocked (t : Trail) : String :=
  sha256hex (strBytes t.hashPayload)

/-- ComputeHash: the public read of computeHashLocked (the RWMutex has no
    pure-state content). -/
def Trail.ComputeHash (t : Trail) : String :=
  t.computeHashLocked

/-- Finalize: set latency from the monotonic clock, freeze when the config
    says so, then always recompute and store the hash.  No immutability
    check guards any of it in the source. -/
def Trail.Finalize (t : Trail) (nowMs : Int) : Trail :=
  let t1 := { t with LatencyMs := nowMs - t.startTime }
  let t2 :=
    if h : t1.cfg.isSome then
      if (t1.cfg.get h).Immutable then { t1 with immutable := true } else t1
    else t1
  { t2 with Hash := t2.computeHashLocked }

/-- Clone: deep copy of a Trail.  The composite literal names only the fields
    copied; Hash, prevHash, immutable and cfg are left at their zero values. -/
def Trail.Clone (t : Trail) : Trail where
  Timestamp := t.Timestamp
  TraceID := t.TraceID
  RequestID := t.RequestID
  Service := t.Service
  Environment := t.Environment
  Request := t.Request
  Response := t.Response
  LatencyMs := t.LatencyMs
  startTime := t.startTime
  InternalSteps := t.InternalSteps
  Integrations := t.Integrations
  Errors := t.Errors
  Metadata := t.Metadata
  immutable := false
  cfg := none
  Hash := ""
  prevHash := ""

/- Go nil-receiver semantics.  All Trail methods above dereference the
   receiver first (they lock the embedded mutex), so calling any of them on a
   nil *Trail is a runtime panic.  Call sites that can receive a nil Trail are
   modelled over Option Trail with Except GoPanic results. -/

/-- A Go runtime panic relevant here. -/
inductive GoPanic where
  | nilPointerDereference : GoPanic
deriving DecidableEq

/- Context helpers (package gotrails, context source file).  A context is
   modelled by the Trail it carries, if any; each helper checks GetTrail for
   nil before touching the Trail, so none of them can panic. -/

/-- AddIntegrationToContext: append to the Trail in context, if present. -/
def AddIntegrationToContext (trailInCtx : Option Trail) (integration : Integration) :
    Option Trail :=
  match trailInCtx with
  | some trail => some (trail.AddIntegration integration)
  | none => none

/-- AddErrorToContext: append to the Trail in context, if present. -/
def AddErrorToContext (trailInCtx : Option Trail) (source message : String) :
    Option Trail :=
  match trailInCtx with
  | some trail => some (trail.AddError source message)
  | none => none

/-- SetMetadataToContext: set metadata on the Trail in context, if present. -/
def SetMetadataToContext (trailInCtx : Option Trail) (key : String) (value : Value) :
    Option Trail :=
  match trailInCtx with
  | some trail => some (trail.SetMetadata key value)
  | none => none

/-- AddInternalStepToContext: append to the Trail in context, if present. -/
def AddInternalStepToContext (trailInCtx : Option Trail) (step : InternalStep) :
    Option Trail :=
  match trailInCtx with
  | some trail => some (trail.AddInternalStep step)
  | none => none

/-- The Trail-consuming tail of HTTPMiddleware.Handler: after NewTrail the
    handler calls trail.SetRequest, later trail.SetResponse and
    trail.Finalize, with no nil check between NewTrail and those calls. -/
def handlerTrailPhase (trail : Option Trail) (req : HTTPRequest) (resp : HTTPResponse)
    (nowMs : Int) : Except GoPanic Trail :=
  match trail with
  | none => Except.error GoPanic.nilPointerDereference
  | some t => Except.ok (((t.SetRequest (some req)).SetResponse (some resp)).Finalize nowMs)

/- Body capture and replay (package body).  A stream is the list of bytes a
   full read of it yields; read errors are outside the model. -/

/-- Reader, with its byte ceiling maxSize. -/
structure Reader where
  maxSize : Nat

/-- What ReadAndRestore hands back: the captured audit bytes, the bytes a full
    read of the returned replacement stream yields, and whether the original
    source was closed. -/
structure RestoredBody where
  captured : List Nat
  replay : List Nat
  sourceClosed : Bool
deriving DecidableEq

/-- ReadAndRestore: read up to maxSize+1 bytes to detect oversize, truncate
    the captured bytes to maxSize when oversize, and return a replacement
    stream that yields the (truncated) captured bytes followed by whatever is
    left unread in the source.  A nil body returns nothing. -/
def Reader.ReadAndRestore (r : Reader) (body : Option (List Nat)) :
    Option RestoredBody :=
  match body with
  | none => none
  | some src =>
    let data0 := src.take (r.maxSize + 1)
    let rest := src.drop (r.maxSize + 1)
    let truncated := decide (data0.length > r.maxSize)
    let data := if truncated then data0.take r.maxSize else data0
    if truncated then
      some { captured := data, replay := data ++ rest, sourceClosed := false }
    else
      some { captured := data, replay := data, sourceClosed := true }

/- Redaction engine (package masker). -/

/-- Masker: the sensitive-field set (lower-cased at construction), the
    replacement literal, and the enabled flag. -/
structure Masker where
  fields : List String
  maskValue : String
  enabled : Bool

/-- The default Masker of masker.New with no options. -/
def Masker.New : Masker where
  fields := ["password", "token", "secret", "api_key", "apikey",
             "authorization", "credit_card", "creditcard", "cvv", "pin"]
  maskValue := "***MASKED***"
  enabled := true

/-- ShouldMask: false when disabled, otherwise membership of the lower-cased
    field name in the sensitive set. -/
def Masker.ShouldMask (m : Masker) (field : String) : Bool :=
  if !m.enabled then false else m.fields.contains field.toLower

mutual

/-- The type switch MaskMap and MaskSlice apply to a non-masked value:
    descend into nested maps and slices, pass everything else through. -/
def Masker.maskNested (m : Masker) : Value → Value
  | Value.vObj o => Value.vObj (Masker.MaskMap m o)
  | Value.vArr a => Value.vArr (Masker.MaskSlice m a)
  | other => other

/-- MaskMap: identity when disabled (or on a nil map); otherwise replace the
    whole value of every key ShouldMask accepts by the literal, and apply the
    type switch to every other value. -/
def Masker.MaskMap (m : Masker) (data : List (String × Value)) :
    List (String × Value) :=
  if !m.enabled then data else
  match data with
  | [] => []
  | (k, v) :: rest =>
    (k, if m.ShouldMask k then Value.vStr m.maskValue else Masker.maskNested m v)
      :: Masker.MaskMap m rest

/-- MaskSlice: identity when disabled (or on a nil slice); otherwise apply
    the type switch to every element. -/
def Masker.MaskSlice (m : Masker) (data : List Value) : List Value :=
  if !m.enabled then data else
  match data with
  | [] => []
  | v :: rest => Masker.maskNested m v :: Masker.MaskSlice m rest

end

/-- scalar: a value the masking engine treats as atomic (not a keyed mapping,
    not a sequence). -/
def Value.isScalar : Value → Bool
  | Value.vObj _ => false
  | Value.vArr _ => false
  | _ => true

/-- Deep check that a value leaks no sensitive entry: every binding whose key
    ShouldMask accepts carries exactly the mask literal, at every nesting
    depth, inside sequences included. -/
def sensitiveMasked (m : Masker) : Value → Bool
  | Value.vObj kvs => goObj kvs
  | Value.vArr xs => goArr xs
  | _ => true
where
  goObj : List (String × Value) → Bool
    | [] => true
    | (k, v) :: rest =>
      (if m.ShouldMask k then
         (match v with | Value.vStr s => s == m.maskValue | _ => false)
       else true)
        && sensitiveMasked m v && goObj rest
  goArr : List Value → Bool
    | [] => true
    | v :: rest => sensitiveMasked m v && goArr rest

/- Header filter (package header, in the transport source file). -/

/-- Filter: deny-list (excludeHeaders), optional allow-list (includeHeaders,
    nil when not in whitelist mode), and the mask literal; the lists hold
    lower-cased names, as the constructor stores them. -/
structure Filter where
  excludeHeaders : List String
  includeHeaders : Option (List String)
  maskValue : String

/-- The default Filter of header.NewFilter with no options. -/
def Filter.NewFilter : Filter where
  excludeHeaders := ["authorization", "cookie", "set-cookie", "x-api-key"]
  includeHeaders := none
  maskValue := "***MASKED***"

/-- Filter.Filter: drop names missing from a configured allow-list, replace
    the value list of deny-listed names by the single mask literal (keeping
    the key), and copy every other value list unchanged. -/
def Filter.Filter (f : Filter) (headers : List (String × List String)) :
    List (String × List String) :=
  headers.filterMap fun kv =>
    let lowerKey := kv.1.toLower
    let allowDrop :=
      match f.includeHeaders with
      | some inc => !inc.contains lowerKey
      | none => false
    if allowDrop then none
    else if f.excludeHeaders.contains lowerKey then some (kv.1, [f.maskValue])
    else some (kv.1, kv.2)

/-- passesAllowList: whether a header name survives the allow-list stage. -/
def Filter.passesAllowList (f : GoTrails.Filter) (key : String) : Bool :=
  match f.includeHeaders with
  | some inc => inc.contains key.toLower
  | none => true

/- Delivery pipeline (package async). -/

/-- The Go error AsyncSink.Write can return: ctx.Err() of an already-cancelled
    context. -/
inductive GoError where
  | contextCanceled : GoError
deriving DecidableEq

/-- AsyncSink state relevant to Write: the bounded queue content, its
    capacity, the closed flag, and the drop-on-full policy flag.  Workers are
    modelled as stalled (nothing dequeues), the regime of the queue claims. -/
structure AsyncSink where
  queue : List Trail
  capacity : Nat
  closed : Bool
  dropOnFull : Bool

/-- What one Write call does: either it returns, with the new state, the
    returned error and the Trail it enqueued (if any), or it blocks (the
    blocking-policy send with no space, no cancellation and no consumer). -/
inductive WriteStep where
  | ret (state : AsyncSink) (err : Option GoError) (enqueued : Option Trail) : WriteStep
  | blocks : WriteStep

/-- AsyncSink.Write on a non-nil Trail: return nil when closed; otherwise
    clone, then either try a non-blocking enqueue and silently drop on a full
    queue (drop-on-full policy), or select between the enqueue and the
    cancellation signal (blocking policy).  selectPick resolves the Go select
    when the queue has space and the context is already cancelled: both cases
    are ready and the runtime picks one pseudo-randomly. -/
def AsyncSink.Write (a : AsyncSink) (ctxCancelled : Bool) (trail : Trail)
    (selectPick : Bool) : WriteStep :=
  if a.closed then WriteStep.ret a none none
  else
    let cloned := trail.Clone
    let hasSpace := a.queue.length < a.capacity
    if a.dropOnFull then
      if hasSpace then WriteStep.ret { a with queue := a.queue ++ [cloned] } none (some cloned)
      else WriteStep.ret a none none
    else
      if hasSpace then
        if ctxCancelled ∧ !selectPick then
          WriteStep.ret a (some GoError.contextCanceled) none
        else
          WriteStep.ret { a with queue := a.queue ++ [cloned] } none (some cloned)
      else
        if ctxCancelled then WriteStep.ret a (some GoError.contextCanceled) none
        else WriteStep.blocks

/-- AsyncSink.Write at the Go call boundary, where the Trail pointer can be
    nil: the closed check runs first, then trail.Clone() dereferences the
    receiver, a panic on nil. -/
def AsyncSink.WriteGo (a : AsyncSink) (ctxCancelled : Bool) (trail : Option Trail)
    (selectPick : Bool) : Except GoPanic WriteStep :=
  if a.closed then Except.ok (WriteStep.ret a none none)
  else
    match trail with
    | none => Except.error GoPanic.nilPointerDereference
    | some t => Except.ok (AsyncSink.Write a ctxCancelled t selectPick)

/-- The state after a WriteStep (a blocked call leaves the state as is). -/
def WriteStep.stateAfter (a : AsyncSink) : WriteStep → AsyncSink
  | WriteStep.ret st _ _ => st
  | WriteStep.blocks => a

/-- The error a WriteStep returned, if it returned. -/
def WriteStep.errOf : WriteStep → Option GoError
  | WriteStep.ret _ e _ => e
  | WriteStep.blocks => none

/-- The Trail a WriteStep enqueued, if any. -/
def WriteStep.enqueuedOf : WriteStep → Option Trail
  | WriteStep.ret _ _ q => q
  | WriteStep.blocks => none

/-- Whether the call blocked. -/
def WriteStep.blocked : WriteStep → Bool
  | WriteStep.ret _ _ _ => false
  | WriteStep.blocks => true

/-- Issue a sequence of Write calls (workers stalled throughout), collecting
    for each call its returned error and whether it blocked. -/
def writeAll (a : AsyncSink) : List Trail → AsyncSink × List (Option GoError × Bool)
  | [] => (a, [])
  | t :: ts =>
    let step := a.Write false t false
    let next := writeAll (step.stateAfter a) ts
    (next.1, (step.errOf, step.blocked) :: next.2)

/- Concrete sample values used by witnesses and counterexamples. -/

/-- A sample request snapshot. -/
def reqA : HTTPRequest := ⟨"GET", "/v1/payments", "", [], Value.vNull⟩

/-- A sample response snapshot. -/
def respA : HTTPResponse := ⟨201, [], Value.vNull⟩

/-- A sample internal step. -/
def stepA : InternalStep := ⟨"CreatePayment", 3, Value.vNull, Value.vNull, "", 0⟩

/-- A sample integration. -/
def integA : Integration := ⟨"http", "billing", 2, Value.vNull, Value.vNull, "", []⟩

/-- A sample Trail that has been finalized under an immutable config: the
    immutable flag is set, a hash and a previous hash are stored. -/
def trailA : Trail where
  Timestamp := "2024-01-01T00:00:00Z"
  TraceID := "trace-1"
  RequestID := "req-1"
  Service := "svc"
  Environment := "dev"
  Request := none
  Response := none
  LatencyMs := 7
  startTime := 0
  InternalSteps := []
  Integrations := []
  Errors := []
  Metadata := []
  immutable := true
  cfg := some DefaultConfig
  Hash := "h0"
  prevHash := "p0"

/-- trailA with a different stored hash and a cleared immutable flag; all the
    hashed fields agree with trailA. -/
def trailB : Trail := { trailA with Hash := "other", immutable := false }

/-- A drop-on-full AsyncSink with capacity 2 and an empty queue. -/
def asinkA : AsyncSink := ⟨[], 2, false, true⟩

/-- A blocking AsyncSink with capacity 1 and an empty queue. -/
def asinkB : AsyncSink := ⟨[], 1, false, false⟩

/-- A blocking AsyncSink with capacity 1 whose queue is full. -/
def asinkC : AsyncSink := ⟨[trailA.Clone], 1, false, false⟩

/- Claim theorems. -/

/-- C8: for a source whose total length is at most the ceiling, ReadAndRestore
    closes the source, captures the full bytes, and the replacement stream
    replays exactly the original bytes. -/
theorem claim8_roundtrip_within_ceiling (r : Reader) (src : List Nat)
    (h : src.length ≤ r.maxSize) :
    r.ReadAndRestore (some src) = some ⟨src, src, true⟩ := by
  have htake : src.take (r.maxSize + 1) = src := List.take_of_length_le (by omega)
  have hlt : ¬ r.maxSize < src.length := by omega
  simp [Reader.ReadAndRestore, htake, hlt]

/-- Witness for C8 at a three-byte source and ceiling 4. -/
theorem claim8_witness :
    ([1, 2, 3] : List Nat).length ≤ (Reader.mk 4).maxSize ∧
    (Reader.mk 4).ReadAndRestore (some [1, 2, 3]) = some ⟨[1, 2, 3], [1, 2, 3], true⟩ :=
  ⟨by decide, claim8_roundtrip_within_ceiling (Reader.mk 4) [1, 2, 3] (by decide)⟩

/-- C1: evaluated at ceiling 2 with source bytes [1, 2, 3], the captured
    audit bytes are exactly the ceiling-long prefix [1, 2], as the claim says,
    but the replacement stream replays [1, 2], not the original [1, 2, 3]:
    the probe byte at index 2, read to detect oversize, is dropped from the
    capture by the truncation and is already consumed from the source, so it
    is lost from the replay.  This refutes the exact-replay half of the
    claim on the code. -/
theorem claim1_truncated_capture_loses_replay_byte :
    (Reader.mk 2).ReadAndRestore (some [1, 2, 3]) = some ⟨[1, 2], [1, 2], false⟩ ∧
    ([1, 2] : List Nat) ≠ [1, 2, 3] := by
  constructor
  · rfl
  · decide

/-- C2, counterexample: on an immutable Trail, SetRequest, SetResponse and
    SetPrevHash still overwrite their fields and Finalize still recomputes the
    latency: the claim that every mutating operation and Finalize leave the
    state unchanged once immutable fails on the code. -/
theorem claim2_counterexample_unguarded_mutators :
    trailA.immutable = true ∧
    (trailA.SetRequest (some reqA)).Request ≠ trailA.Request ∧
    (trailA.SetResponse (some respA)).Response ≠ trailA.Response ∧
    (trailA.SetPrevHash "q0").prevHash ≠ trailA.prevHash ∧
    (trailA.Finalize 5).LatencyMs ≠ trailA.LatencyMs := by
  refine ⟨rfl, ?_, ?_, ?_, ?_⟩
  · simp [Trail.SetRequest, trailA]
  · simp [Trail.SetResponse, trailA]
  · simp [Trail.SetPrevHash, trailA]
  · show (trailA.Finalize 5).LatencyMs ≠ 7
    simp [Trail.Finalize, trailA, DefaultConfig]

/-- C2, amended: once a Trail is immutable, the five guarded mutators
    AddInternalStep, AddIntegration, AddError, AddErrorWithCode and
    SetMetadata leave the entire Trail state unchanged and signal nothing
    (their only effect is the silently absorbed return); SetRequest,
    SetResponse, SetPrevHash and Finalize carry no guard and still mutate. -/
theorem claim2_amended_guarded_mutators_noop (t : Trail) (h : t.immutable = true)
    (step : InternalStep) (integration : Integration) (source message code key : String)
    (value : Value) :
    t.AddInternalStep step = t ∧ t.AddIntegration integration = t ∧
    t.AddError source message = t ∧ t.AddErrorWithCode source message code = t ∧
    t.SetMetadata key value = t := by
  refine ⟨?_, ?_, ?_, ?_, ?_⟩ <;>
    simp [Trail.AddInternalStep, Trail.AddIntegration, Trail.AddError,
          Trail.AddErrorWithCode, Trail.SetMetadata, h]

/-- Witness for the amended C2 at the immutable sample Trail. -/
theorem claim2_amended_witness :
    trailA.immutable = true ∧
    (trailA.AddInternalStep stepA = trailA ∧ trailA.AddIntegration integA = trailA ∧
     trailA.AddError "svc" "boom" = trailA ∧ trailA.AddErrorWithCode "svc" "boom" "E1" = trailA ∧
     trailA.SetMetadata "k" Value.vNull = trailA) :=
  ⟨rfl, claim2_amended_guarded_mutators_noop trailA rfl stepA integA "svc" "boom" "E1" "k"
    Value.vNull⟩

/-- C4: Clone leaves Hash, prevHash, immutable and cfg at their zero values,
    and AsyncSink.Write enqueues exactly the clone, so any Trail the pipeline
    hands to a worker carries an empty hash, an empty previous hash, a clear
    immutable flag and no config reference, whatever the original held. -/
theorem claim4_clone_resets_hash_and_pipeline (t : Trail) (a : AsyncSink)
    (ctxCancelled selectPick : Bool) (enq : Trail)
    (h : (a.Write ctxCancelled t selectPick).enqueuedOf = some enq) :
    enq = t.Clone ∧ enq.Hash = "" ∧ enq.prevHash = "" ∧ enq.immutable = false ∧
    enq.cfg = none := by
  have henq : enq = t.Clone := by
    unfold AsyncSink.Write at h
    by_cases h1 : a.closed = true
    · simp [h1, WriteStep.enqueuedOf] at h
    · by_cases h2 : a.dropOnFull = true
      · by_cases h3 : a.queue.length < a.capacity
        · simp [h1, h2, h3, WriteStep.enqueuedOf] at h; exact h.symm
        · simp [h1, h2, h3, WriteStep.enqueuedOf] at h
      · by_cases h3 : a.queue.length < a.capacity
        · by_cases h4 : ctxCancelled = true ∧ selectPick = false
          · simp [h1, h2, h3, h4, WriteStep.enqueuedOf] at h
          · simp [h1, h2, h3, h4, WriteStep.enqueuedOf] at h; exact h.symm
        · by_cases h5 : ctxCancelled = true
          · simp [h1, h2, h3, h5, WriteStep.enqueuedOf] at h
          · simp [h1, h2, h3, h5, WriteStep.enqueuedOf] at h
  subst henq
  exact ⟨rfl, rfl, rfl, rfl, rfl⟩

/-- Witness for C4: writing the finalized immutable sample Trail through a
    drop-on-full sink with space enqueues its clone, which has lost the
    stored hash, the previous hash, the immutable flag and the config. -/
theorem claim4_witness :
    (asinkA.Write false trailA false).enqueuedOf = some trailA.Clone ∧
    (trailA.Clone = trailA.Clone ∧ trailA.Clone.Hash = "" ∧ trailA.Clone.prevHash = "" ∧
     trailA.Clone.immutable = false ∧ trailA.Clone.cfg = none) :=
  ⟨rfl, claim4_clone_resets_hash_and_pipeline trailA asinkA false false trailA.Clone rfl⟩

/-- C3: evaluated at the failing input (a sampling draw that made NewTrail
    return none), the context helpers do treat the absent Trail as a valid,
    silently ignored case, but the HTTP middleware handler dereferences the
    nil Trail in SetRequest and AsyncSink.Write dereferences it in Clone:
    both are Go nil-pointer panics, not silent completion, refuting the claim
    for those two consumers. -/
theorem claim3_nil_trail_dereference :
    NewTrail "trace-1" "req-1" (some { DefaultConfig with SamplingRate := 1 / 2 })
        (3 / 4) "2024-01-01T00:00:00Z" 0 = none ∧
    handlerTrailPhase none reqA respA 5 = Except.error GoPanic.nilPointerDereference ∧
    AsyncSink.WriteGo asinkA false none true = Except.error GoPanic.nilPointerDereference ∧
    AddIntegrationToContext none integA = none ∧
    AddErrorToContext none "svc" "boom" = none ∧
    SetMetadataToContext none "k" Value.vNull = none ∧
    AddInternalStepToContext none stepA = none := by
  refine ⟨?_, rfl, rfl, rfl, rfl, rfl, rfl⟩
  simp [NewTrail]
  norm_num

/-- C5: ComputeHash reads only the thirteen serialized fields (identifiers,
    tags, request, response, latency, steps, integrations, errors, metadata)
    and the previous hash — not the stored Hash, the immutable flag or the
    config — so two Trails agreeing on those fields get the identical digest;
    repeated calls on one unmodified Trail are the special case of a Trail
    agreeing with itself. -/
theorem claim5_computeHash_deterministic (t1 t2 : Trail)
    (h1 : t1.Timestamp = t2.Timestamp) (h2 : t1.TraceID = t2.TraceID)
    (h3 : t1.RequestID = t2.RequestID) (h4 : t1.Service = t2.Service)
    (h5 : t1.Environment = t2.Environment) (h6 : t1.Request = t2.Request)
    (h7 : t1.Response = t2.Response) (h8 : t1.LatencyMs = t2.LatencyMs)
    (h9 : t1.InternalSteps = t2.InternalSteps) (h10 : t1.Integrations = t2.Integrations)
    (h11 : t1.Errors = t2.Errors) (h12 : t1.Metadata = t2.Metadata)
    (h13 : t1.prevHash = t2.prevHash) :
    t1.ComputeHash = t2.ComputeHash := by
  simp only [Trail.ComputeHash, Trail.computeHashLocked, Trail.hashPayload,
    h1, h2, h3, h4, h5, h6, h7, h8, h9, h10, h11, h12, h13]

/-- Witness for C5: trailA and trailB differ in the stored Hash and the
    immutable flag but agree on every hashed field, so their digests agree. -/
theorem claim5_witness : trailA.ComputeHash = trailB.ComputeHash :=
  claim5_computeHash_deterministic trailA trailB rfl rfl rfl rfl rfl rfl rfl rfl rfl
    rfl rfl rfl rfl

/-- Invariant for C7: under the drop-on-full policy (workers stalled), any
    sequence of writes keeps the queue within its capacity, never blocks a
    caller, and surfaces no error; capacity and flags are untouched. -/
theorem writeAll_drop_invariant (ts : List Trail) :
    ∀ a : AsyncSink, a.dropOnFull = true → a.queue.length ≤ a.capacity →
      ((writeAll a ts).1.queue.length ≤ a.capacity ∧
       (writeAll a ts).1.capacity = a.capacity) ∧
      ∀ rb ∈ (writeAll a ts).2, rb.1 = none ∧ rb.2 = false := by
  induction ts with
  | nil => intro a hdrop hlen; exact ⟨⟨hlen, rfl⟩, by simp [writeAll]⟩
  | cons t ts ih =>
    intro a hdrop hlen
    by_cases h1 : a.closed = true
    · have hstep : a.Write false t false = WriteStep.ret a none none := by
        unfold AsyncSink.Write; simp [h1]
      have := ih a hdrop hlen
      simp only [writeAll, hstep, WriteStep.stateAfter, WriteStep.errOf, WriteStep.blocked]
      exact ⟨this.1, by
        intro rb hrb
        rcases List.mem_cons.mp hrb with hh | hh
        · subst hh; exact ⟨rfl, rfl⟩
        · exact this.2 rb hh⟩
    · by_cases h3 : a.queue.length < a.capacity
      · have hstep : a.Write false t false =
            WriteStep.ret { a with queue := a.queue ++ [t.Clone] } none (some t.Clone) := by
          unfold AsyncSink.Write; simp [h1, hdrop, h3]
        have hlen2 : ({ a with queue := a.queue ++ [t.Clone] } : AsyncSink).queue.length ≤
            ({ a with queue := a.queue ++ [t.Clone] } : AsyncSink).capacity := by
          simp; omega
        have := ih { a with queue := a.queue ++ [t.Clone] } hdrop hlen2
        simp only [writeAll, hstep, WriteStep.stateAfter, WriteStep.errOf, WriteStep.blocked]
        refine ⟨⟨?_, ?_⟩, ?_⟩
        · exact le_trans this.1.1 (by simp)
        · simpa using this.1.2
        · intro rb hrb
          rcases List.mem_cons.mp hrb with hh | hh
          · subst hh; exact ⟨rfl, rfl⟩
          · exact this.2 rb hh
      · have hstep : a.Write false t false = WriteStep.ret a none none := by
          unfold AsyncSink.Write; simp [h1, hdrop, h3]
        have := ih a hdrop hlen
        simp only [writeAll, hstep, WriteStep.stateAfter, WriteStep.errOf, WriteStep.blocked]
        exact ⟨this.1, by
          intro rb hrb
          rcases List.mem_cons.mp hrb with hh | hh
          · subst hh; exact ⟨rfl, rfl⟩
          · exact this.2 rb hh⟩

/-- C7: with the drop-on-full policy, queue capacity K, workers permanently
    stalled and K+5 writes issued from an empty queue, the queue never holds
    more than K Trails (so at most K can ever reach the external sink), no
    write blocks its caller, and no write surfaces an error. -/
theorem claim7_drop_on_full_bounds (K : Nat) (ts : List Trail) (h : ts.length = K + 5) :
    (writeAll ⟨[], K, false, true⟩ ts).1.queue.length ≤ K ∧
    ∀ rb ∈ (writeAll ⟨[], K, false, true⟩ ts).2, rb.1 = none ∧ rb.2 = false := by
  have := writeAll_drop_invariant ts ⟨[], K, false, true⟩ rfl (by simp)
  exact ⟨this.1.1, this.2⟩

/-- Witness for C7 at capacity 1 and six writes of the sample Trail. -/
theorem claim7_witness :
    (List.replicate 6 trailA).length = 1 + 5 ∧
    ((writeAll ⟨[], 1, false, true⟩ (List.replicate 6 trailA)).1.queue.length ≤ 1 ∧
     ∀ rb ∈ (writeAll ⟨[], 1, false, true⟩ (List.replicate 6 trailA)).2,
       rb.1 = none ∧ rb.2 = false) :=
  ⟨rfl, claim7_drop_on_full_bounds 1 (List.replicate 6 trailA) rfl⟩

/-- C9, counterexample: in blocking mode with queue space available and an
    already-cancelled context, both select cases are ready, and when the Go
    runtime picks the send case the call enqueues the clone and returns nil,
    not a cancellation outcome — refuting the claim quantified over every
    write with a cancelled signal. -/
theorem claim9_counterexample_cancelled_with_space :
    (asinkB.Write true trailA true).errOf ≠ some GoError.contextCanceled ∧
    (asinkB.Write true trailA true).enqueuedOf = some trailA.Clone := by
  constructor
  · show (none : Option GoError) ≠ some GoError.contextCanceled
    simp
  · rfl

/-- C9, amended: in blocking mode, when the sink is open and the queue is
    full, a write supplied with an already-cancelled signal returns the
    cancellation error immediately, enqueues nothing and leaves the state
    unchanged; with queue space available the select may instead enqueue the
    Trail and return nil. -/
theorem claim9_amended_cancelled_full_queue (a : AsyncSink) (t : Trail) (selectPick : Bool)
    (hclosed : a.closed = false) (hmode : a.dropOnFull = false)
    (hfull : a.capacity ≤ a.queue.length) :
    a.Write true t selectPick = WriteStep.ret a (some GoError.contextCanceled) none := by
  unfold AsyncSink.Write
  have h3 : ¬ a.queue.length < a.capacity := by omega
  simp [hclosed, hmode, h3]

/-- Witness for the amended C9 at a full capacity-1 blocking sink. -/
theorem claim9_amended_witness :
    asinkC.closed = false ∧ asinkC.dropOnFull = false ∧
    asinkC.capacity ≤ asinkC.queue.length ∧
    asinkC.Write true trailA false = WriteStep.ret asinkC (some GoError.contextCanceled) none :=
  ⟨rfl, rfl, by decide,
   claim9_amended_cancelled_full_queue asinkC trailA false rfl rfl (by decide)⟩

/-- Deep masking safety over keyed mappings: with masking enabled, every
    binding of the output of MaskMap whose key ShouldMask accepts holds
    exactly the mask literal, at every nesting depth. -/
theorem maskMap_sensitiveMasked (m : Masker) (h : m.enabled = true) :
    ∀ data, sensitiveMasked.goObj m (m.MaskMap data) = true := by
  refine Masker.MaskMap.induct m
    (fun v => sensitiveMasked m (m.maskNested v) = true)
    (fun xs => sensitiveMasked.goArr m (m.MaskSlice xs) = true)
    (fun data => sensitiveMasked.goObj m (m.MaskMap data) = true)
    ?_ ?_ ?_ ?_ ?_ ?_ ?_ ?_ ?_
  · intro o ih; simpa [Masker.maskNested, sensitiveMasked] using ih
  · intro a ih; simpa [Masker.maskNested, sensitiveMasked] using ih
  · intro v hno hna
    cases v with
    | vObj o => exact absurd rfl (hno o)
    | vArr a => exact absurd rfl (hna a)
    | vNull => simp [Masker.maskNested, sensitiveMasked]
    | vBool b => simp [Masker.maskNested, sensitiveMasked]
    | vInt n => simp [Masker.maskNested, sensitiveMasked]
    | vStr s => simp [Masker.maskNested, sensitiveMasked]
  · intro t habs; simp [h] at habs
  · intro _; simp [Masker.MaskSlice, h, sensitiveMasked.goArr]
  · intro _ v vs ih1 ih2
    have e : m.MaskSlice (v :: vs) = m.maskNested v :: m.MaskSlice vs := by
      simp [Masker.MaskSlice, h]
    rw [e]; simp [sensitiveMasked.goArr, ih1, ih2]
  · intro t habs; simp [h] at habs
  · intro _; simp [Masker.MaskMap, h, sensitiveMasked.goObj]
  · intro _ k v rest ih1 ih3
    have e : m.MaskMap ((k, v) :: rest) =
        (k, if m.ShouldMask k then Value.vStr m.maskValue else m.maskNested v)
          :: m.MaskMap rest := by
      simp [Masker.MaskMap, h]
    rw [e]
    by_cases hsm : m.ShouldMask k = true
    · simp [sensitiveMasked.goObj, hsm, sensitiveMasked, ih3]
    · simp [sensitiveMasked.goObj, hsm, ih1, ih3]

/-- Deep masking safety over sequences: the MaskSlice counterpart of the
    MaskMap safety invariant. -/
theorem maskSlice_sensitiveMasked (m : Masker) (h : m.enabled = true) :
    ∀ xs, sensitiveMasked.goArr m (m.MaskSlice xs) = true := by
  refine Masker.MaskSlice.induct m
    (fun v => sensitiveMasked m (m.maskNested v) = true)
    (fun xs => sensitiveMasked.goArr m (m.MaskSlice xs) = true)
    (fun data => sensitiveMasked.goObj m (m.MaskMap data) = true)
    ?_ ?_ ?_ ?_ ?_ ?_ ?_ ?_ ?_
  · intro o ih; simpa [Masker.maskNested, sensitiveMasked] using ih
  · intro a ih; simpa [Masker.maskNested, sensitiveMasked] using ih
  · intro v hno hna
    cases v with
    | vObj o => exact absurd rfl (hno o)
    | vArr a => exact absurd rfl (hna a)
    | vNull => simp [Masker.maskNested, sensitiveMasked]
    | vBool b => simp [Masker.maskNested, sensitiveMasked]
    | vInt n => simp [Masker.maskNested, sensitiveMasked]
    | vStr s => simp [Masker.maskNested, sensitiveMasked]
  · intro t habs; simp [h] at habs
  · intro _; simp [Masker.MaskSlice, h, sensitiveMasked.goArr]
  · intro _ v vs ih1 ih2
    have e : m.MaskSlice (v :: vs) = m.maskNested v :: m.MaskSlice vs := by
      simp [Masker.MaskSlice, h]
    rw [e]; simp [sensitiveMasked.goArr, ih1, ih2]
  · intro t habs; simp [h] at habs
  · intro _; simp [Masker.MaskMap, h, sensitiveMasked.goObj]
  · intro _ k v rest ih1 ih3
    have e : m.MaskMap ((k, v) :: rest) =
        (k, if m.ShouldMask k then Value.vStr m.maskValue else m.maskNested v)
          :: m.MaskMap rest := by
      simp [Masker.MaskMap, h]
    rw [e]
    by_cases hsm : m.ShouldMask k = true
    · simp [sensitiveMasked.goObj, hsm, sensitiveMasked, ih3]
    · simp [sensitiveMasked.goObj, hsm, ih1, ih3]

/-- Entry-wise behaviour of MaskMap: a sensitive key keeps its key and gets
    the literal; any other key keeps its key and gets the type switch applied
    to its value. -/
theorem maskMap_mem (m : Masker) (h : m.enabled = true) :
    ∀ (data : List (String × Value)) (kv : String × Value), kv ∈ data →
      (m.ShouldMask kv.1 = true → (kv.1, Value.vStr m.maskValue) ∈ m.MaskMap data) ∧
      (m.ShouldMask kv.1 = false → (kv.1, m.maskNested kv.2) ∈ m.MaskMap data) := by
  intro data
  induction data with
  | nil => intro kv hkv; cases hkv
  | cons head rest ih =>
    intro kv hkv
    have e : m.MaskMap (head :: rest) =
        (head.1, if m.ShouldMask head.1 then Value.vStr m.maskValue
                 else m.maskNested head.2) :: m.MaskMap rest := by
      rcases head with ⟨k, v⟩
      simp [Masker.MaskMap, h]
    rcases List.mem_cons.mp hkv with hh | hh
    · subst hh
      constructor <;> intro hsm <;> rw [e] <;> simp [hsm]
    · exact ⟨fun hsm => by rw [e]; exact List.mem_cons_of_mem _ ((ih kv hh).1 hsm),
             fun hsm => by rw [e]; exact List.mem_cons_of_mem _ ((ih kv hh).2 hsm)⟩

/-- C6: with masking enabled, MaskMap replaces the entire value under any
    key ShouldMask accepts (lower-cased membership of the sensitive set) by
    the mask literal while keeping the key, applies the map/slice type switch
    to every other value, and that switch leaves scalars unchanged; deeply,
    no binding under a sensitive key anywhere in the output of MaskMap or
    MaskSlice holds anything but the literal, sequences included, so an
    original sensitive value never survives under its key. -/
theorem claim6_mask_sensitive_fields (m : Masker) (data : List (String × Value))
    (xs : List Value) (h : m.enabled = true) :
    (∀ kv ∈ data, m.ShouldMask kv.1 = true → (kv.1, Value.vStr m.maskValue) ∈ m.MaskMap data) ∧
    (∀ kv ∈ data, m.ShouldMask kv.1 = false → (kv.1, m.maskNested kv.2) ∈ m.MaskMap data) ∧
    (∀ v, Value.isScalar v = true → m.maskNested v = v) ∧
    sensitiveMasked m (Value.vObj (m.MaskMap data)) = true ∧
    sensitiveMasked m (Value.vArr (m.MaskSlice xs)) = true := by
  refine ⟨fun kv hkv => (maskMap_mem m h data kv hkv).1,
          fun kv hkv => (maskMap_mem m h data kv hkv).2, ?_, ?_, ?_⟩
  · intro v hv
    cases v with
    | vObj o => cases hv
    | vArr a => cases hv
    | vNull => rfl
    | vBool b => rfl
    | vInt n => rfl
    | vStr s => rfl
  · simpa [sensitiveMasked] using maskMap_sensitiveMasked m h data
  · simpa [sensitiveMasked] using maskSlice_sensitiveMasked m h xs

/-- The body of the spec scenario: a password beside an amount. -/
def dataA : List (String × Value) :=
  [("password", Value.vStr "secret"), ("amount", Value.vInt 150000)]

/-- Witness for C6: the default masker on the scenario body leaves no
    sensitive binding unmasked at any depth. -/
theorem claim6_witness :
    sensitiveMasked Masker.New (Value.vObj (Masker.New.MaskMap dataA)) = true :=
  (claim6_mask_sensitive_fields Masker.New dataA [] rfl).2.2.2.1

/-- One step of Filter.Filter: a header failing the allow-list vanishes, a
    deny-listed one keeps its key with the mask literal as only value, any
    other passes with its values. -/
theorem filter_cons (f : GoTrails.Filter) (k : String) (vs : List String)
    (rest : List (String × List String)) :
    f.Filter ((k, vs) :: rest) =
      if f.passesAllowList k = true then
        (if f.excludeHeaders.contains k.toLower = true then (k, [f.maskValue]) else (k, vs))
          :: f.Filter rest
      else f.Filter rest := by
  unfold Filter.Filter Filter.passesAllowList
  rcases f.includeHeaders with _ | inc
  · by_cases he : k.toLower ∈ f.excludeHeaders <;>
      simp [List.filterMap_cons, he]
  · by_cases hc : k.toLower ∈ inc <;>
      by_cases he : k.toLower ∈ f.excludeHeaders <;>
      simp [List.filterMap_cons, hc, he]

/-- C10: every header surviving the filter passed the allow-list (so with an
    allow-list configured, only listed names appear at all); an input header
    that passes the allow-list appears with its value list replaced by the
    single mask literal when its lower-cased name is deny-listed (the key is
    kept), and appears with its value list intact otherwise.  The output
    lists are fresh values of the pure model; the source builds them with
    make and copy, never aliasing the input. -/
theorem claim10_header_filter_stages (f : GoTrails.Filter)
    (headers : List (String × List String)) :
    (∀ kv ∈ f.Filter headers, f.passesAllowList kv.1 = true) ∧
    (∀ kv ∈ headers, f.passesAllowList kv.1 = true →
      (f.excludeHeaders.contains kv.1.toLower = true →
        (kv.1, [f.maskValue]) ∈ f.Filter headers) ∧
      (f.excludeHeaders.contains kv.1.toLower = false → kv ∈ f.Filter headers)) := by
  constructor
  · induction headers with
    | nil => intro kv hm; simp [Filter.Filter] at hm
    | cons head rest ih =>
      intro kv hm
      rcases head with ⟨k, vs⟩
      rw [filter_cons] at hm
      by_cases hp : f.passesAllowList k = true
      · rw [if_pos hp] at hm
        rcases List.mem_cons.mp hm with hh | hh
        · subst hh
          by_cases he : k.toLower ∈ f.excludeHeaders
          · simpa [he] using hp
          · simpa [he] using hp
        · exact ih kv hh
      · rw [if_neg hp] at hm
        exact ih kv hm
  · induction headers with
    | nil => intro kv hm; cases hm
    | cons head rest ih =>
      intro kv hm hpass
      rcases head with ⟨k, vs⟩
      rcases List.mem_cons.mp hm with hh | hh
      · subst hh
        have hp : f.passesAllowList k = true := hpass
        constructor <;> intro hex
        · have hex2 : f.excludeHeaders.contains k.toLower = true := hex
          rw [filter_cons, if_pos hp, if_pos hex2]
          exact List.mem_cons_self _ _
        · have hex2 : f.excludeHeaders.contains k.toLower = false := hex
          rw [filter_cons, if_pos hp, if_neg (by rw [hex2]; exact Bool.false_ne_true)]
          exact List.mem_cons_self _ _
      · have hrest := ih kv hh hpass
        constructor <;> intro hex <;> rw [filter_cons] <;>
          by_cases hp : f.passesAllowList k = true
        · rw [if_pos hp]; exact List.mem_cons_of_mem _ (hrest.1 hex)
        · rw [if_neg hp]; exact hrest.1 hex
        · rw [if_pos hp]; exact List.mem_cons_of_mem _ (hrest.2 hex)
        · rw [if_neg hp]; exact hrest.2 hex

end GoTrails
